import Mathlib

/-! Shallow embedding of the AKAO documentation link validator
(`src/blueprint/check.py`) and proofs about its behaviour.  Python strings
are modelled as Lean `String`s (with most work done on their character
lists); the filesystem is modelled as a record of two read-only functions,
one telling whether a path exists and one returning the content of a path
when it can be read. -/

/-- ASCII whitespace, as matched by Python's `str.strip` and the `\s` class. -/
def pySpace (c : Char) : Bool :=
  c = ' ' || c = '\t' || c = '\n' || c = '\x0b' || c = '\x0c' || c = '\r'

/-- Python `s.startswith(p)` on character lists (first argument the string,
second the pattern). -/
def py_startswith : List Char → List Char → Bool
  | _, [] => true
  | [], _ :: _ => false
  | c :: cs, p :: ps => c = p && py_startswith cs ps

/-- Python `s.endswith(p)` on character lists. -/
def py_endswith (s pat : List Char) : Bool :=
  py_startswith s.reverse pat.reverse

/-- Python substring containment `needle in s`. -/
def py_in (needle : List Char) : List Char → Bool
  | [] => needle.isEmpty
  | c :: cs => py_startswith (c :: cs) needle || py_in needle cs

/-- Python `str.strip()`: remove leading and trailing whitespace. -/
def py_strip (l : List Char) : List Char :=
  ((l.dropWhile pySpace).reverse.dropWhile pySpace).reverse

/-- Python `str.rstrip()`: remove trailing whitespace. -/
def py_rstrip (l : List Char) : List Char :=
  (l.reverse.dropWhile pySpace).reverse

/-- Characters kept by the deletion step `re.sub(r'[^a-z0-9\s-]', '', s)`:
lowercase letters, digits, whitespace and hyphens survive. -/
def keep_char (c : Char) : Bool :=
  ('a' ≤ c && c ≤ 'z') || ('0' ≤ c && c ≤ '9') || pySpace c || c = '-'

/-- Replace each maximal run of characters satisfying `p` by the single
character `out`; models `re.sub(r'\s+', '-', s)` (with `p` the whitespace
test) and `re.sub(r'-+', '-', s)` (with `p` the hyphen test). -/
def collapse_runs (p : Char → Bool) (out : Char) : List Char → List Char
  | [] => []
  | [c] => if p c then [out] else [c]
  | c :: d :: cs =>
    if p c && p d then collapse_runs p out (d :: cs)
    else (if p c then out else c) :: collapse_runs p out (d :: cs)

/-- Python `s.strip('-')`: remove leading and trailing hyphens. -/
def strip_hyphens (l : List Char) : List Char :=
  ((l.dropWhile (fun c => c = '-')).reverse.dropWhile (fun c => c = '-')).reverse

/-- Source `generate_github_anchor(heading)`: lowercase, delete characters
outside `[a-z0-9\s-]`, turn whitespace runs into one hyphen, collapse hyphen
runs, trim leading and trailing hyphens. -/
def generate_github_anchor (heading : String) : String :=
  let a1 := heading.data.map Char.toLower
  let a2 := a1.filter keep_char
  let a3 := collapse_runs pySpace '-' a2
  let a4 := collapse_runs (fun c => c = '-') '-' a3
  String.mk (strip_hyphens a4)

/-- The filesystem seen by the validator: whether a path exists
(`Path.exists()`) and, independently, the content obtained by opening and
reading it (`none` models a missing file or a read error such as a
permission or encoding failure). -/
structure FS where
  pathExists : String → Bool
  read : String → Option String

/-- Python `content.split(chr(10))` on character lists: always at least one
part, empty parts kept. -/
def split_nl : List Char → List (List Char)
  | [] => [[]]
  | c :: cs =>
    if c = '\n' then [] :: split_nl cs
    else
      match split_nl cs with
      | [] => [[c]]
      | h :: t => (c :: h) :: t

/-- One iteration of the heading loop in `extract_headings`: if the stripped
line starts with a hash, drop the leading hash run and the whitespace after
it (`re.sub` with pattern caret-hash-plus-whitespace-star), right-strip, and
keep the result when it is non-empty. -/
def heading_of_line (line : String) : Option String :=
  let s := py_strip line.data
  if py_startswith s ['#'] then
    let h := py_rstrip ((s.dropWhile (fun c => c = '#')).dropWhile pySpace)
    if h.isEmpty then none else some (String.mk h)
  else none

/-- The per-line part of `extract_headings`, over an explicit line list. -/
def extract_headings_lines (lines : List String) : List String :=
  lines.filterMap heading_of_line

/-- Source `extract_headings(file_path)`: all headings of a markdown file;
a file that cannot be read contributes no headings. -/
def extract_headings (fs : FS) (file_path : String) : List String :=
  match fs.read file_path with
  | none => []
  | some content => extract_headings_lines ((split_nl content.data).map String.mk)

/-- Source `anchor_exists(file_path, anchor)`: some heading of the file
folds to exactly the requested anchor. -/
def anchor_exists (fs : FS) (file_path anchor : String) : Bool :=
  (extract_headings fs file_path).any (fun h => generate_github_anchor h == anchor)

/-- Python `link_target.count(c)`. -/
def count_char (c : Char) (l : List Char) : Nat :=
  (l.filter (fun d => d = c)).length

/-- Split before the first character `stop`: returns the characters before
it and the rest after consuming it, or `none` when `stop` never occurs. -/
def takeUntil (stop : Char) : List Char → Option (List Char × List Char)
  | [] => none
  | c :: cs =>
    if c = stop then some ([], cs)
    else
      match takeUntil stop cs with
      | none => none
      | some (a, b) => some (c :: a, b)

/-- Python `link_target.split(chr(35), 1)` guarded by the containment test:
when a hash occurs, the parts before and after the first hash; otherwise the
whole target and an empty anchor part. -/
def split_hash (l : List Char) : List Char × List Char :=
  match takeUntil '#' l with
  | none => (l, [])
  | some (a, b) => (a, b)

/-- The file part of a relative target: the part before any hash, with a
leading dot-slash removed. -/
def resolve_file_part (target : String) : String :=
  let fp0 := (split_hash target.data).1
  String.mk (if py_startswith fp0 ['.', '/'] then fp0.drop 2 else fp0)

/-- The anchor part of a relative target: what follows the first hash. -/
def resolve_anchor_part (target : String) : String :=
  String.mk (split_hash target.data).2

/-- Pathlib join `Path(blueprint-directory) / file_part`: an absolute right
operand replaces the left one, an empty right operand is ignored. -/
def joinBlueprintPath (file_part : String) : String :=
  if py_startswith file_part.data ['/'] then file_part
  else if file_part = "" then "blueprint"
  else "blueprint/" ++ file_part

/-- The image extensions that make a missing relative target acceptable. -/
def image_exts : List String :=
  [".svg", ".png", ".jpg", ".jpeg", ".gif", ".webp"]

/-- Python `file_part.endswith(tuple-of-image-extensions)`. -/
def is_image_ref (s : String) : Bool :=
  image_exts.any (fun e => py_endswith s.data e.data)

/-- One record of the validator's output. -/
structure ValidationResult where
  file : String
  line : Nat
  text : String
  link : String
  status : String
  suggestion : String
deriving DecidableEq

/-- The status and suggestion computed by `validate_link`: classify the
target (external, anchor-only, relative-file, unsupported) and resolve it
against the filesystem and the heading sets. -/
def validate_status (fs : FS) (source_file link_target : String) : String × String :=
  if py_startswith link_target.data "http://".data ||
     py_startswith link_target.data "https://".data then
    ("valid", "")
  else if py_startswith link_target.data ['#'] then
    let anchor := String.mk (link_target.data.drop 1)
    if anchor_exists fs source_file anchor then ("valid", "")
    else ("missing-anchor",
      "Anchor '#" ++ anchor ++ "' not found in " ++ source_file ++
      ". Check heading exists and anchor format.")
  else if py_startswith link_target.data ['.', '/'] ||
          (count_char '/' link_target.data = 0 ||
           count_char '/' link_target.data = 1) then
    let file_part := resolve_file_part link_target
    let anchor_part := resolve_anchor_part link_target
    let full_file_path := joinBlueprintPath file_part
    if fs.pathExists full_file_path then
      if anchor_part ≠ "" then
        if anchor_exists fs full_file_path anchor_part then ("valid", "")
        else ("missing-anchor",
          "Anchor '#" ++ anchor_part ++ "' not found in " ++ full_file_path ++
          ". Check heading exists and anchor format.")
      else ("valid", "")
    else
      if is_image_ref file_part then ("valid", "")
      else ("invalid",
        "File '" ++ file_part ++ "' does not exist in blueprint/ directory.")
  else
    ("invalid", "Link format not supported. Use relative links (./file.md) for local files.")

/-- Source `validate_link(source_file, line_num, link_text, link_target)`:
one result record per candidate, echoing the candidate's fields and adding
the computed status and suggestion. -/
def validate_link (fs : FS) (source_file : String) (line_num : Nat)
    (link_text link_target : String) : ValidationResult :=
  { file := source_file, line := line_num, text := link_text,
    link := link_target,
    status := (validate_status fs source_file link_target).1,
    suggestion := (validate_status fs source_file link_target).2 }

/-- Source `is_likely_code_snippet(line, link_text, link_target)`: heuristic
suppression of bracket-paren matches that are really source code. -/
def is_likely_code_snippet (line link_text link_target : String) : Bool :=
  let l := line.data
  let t := link_text.data
  let g := link_target.data
  if py_in "```".data l || py_startswith (py_strip l) "    ".data then true
  else if (link_text = "this" || link_text = "&" || link_text = "=") &&
          (py_in "const".data g || py_in ['&'] g) then true
  else if (py_in "const".data g && (py_in ['&'] g || py_in ['*'] g)) ||
          py_in "std::".data g ||
          (py_in "::".data g && !py_in "http".data g) then true
  else if py_in [','] t && (py_in "const".data g || py_in ['&'] g) then true
  else false

/-- Match the link pattern (bracketed display text excluding a closing
bracket, immediately followed by a parenthesised target excluding a closing
parenthesis) at the head of the character list: on success return display
text, target and the remaining characters after the match.  Mirrors the
regex used in `extract_links_from_file`, whose character classes make the
greedy groups deterministic. -/
def matchLink : List Char → Option (List Char × List Char × List Char)
  | '[' :: cs =>
    match takeUntil ']' cs with
    | none => none
    | some (text, rest1) =>
      match rest1 with
      | '(' :: cs2 =>
        match takeUntil ')' cs2 with
        | none => none
        | some (target, rest2) => some (text, target, rest2)
      | _ => none
  | _ => none

/-- The scanning loop of `re.findall` with explicit fuel so the definition
is structurally recursive and kernel-computable: a successful match at the
current position appends its groups and resumes after the match, otherwise
the scan advances one character.  Each step strictly shortens the list, so
fuel equal to the initial length never runs out. -/
def findall_links_fuel : Nat → List Char → List (String × String)
  | 0, _ => []
  | _ + 1, [] => []
  | fuel + 1, c :: cs =>
    match matchLink (c :: cs) with
    | some (t, g, rest) => (String.mk t, String.mk g) :: findall_links_fuel fuel rest
    | none => findall_links_fuel fuel cs

/-- Python `re.findall` of the link pattern over one line: leftmost,
non-overlapping matches, scanning left to right. -/
def findall_links (l : List Char) : List (String × String) :=
  findall_links_fuel l.length l

/-- One extracted link occurrence. -/
structure Link where
  line_num : Nat
  text : String
  target : String
deriving DecidableEq

/-- Fence test used both for toggling and skipping: the stripped line
starts with a triple backtick. -/
def fence_toggle (line : String) : Bool :=
  py_startswith (py_strip line.data) "```".data

/-- The fence-state update after a line (`in_code_block = not in_code_block`
on a fence line). -/
def fence_step (b : Bool) (line : String) : Bool :=
  if fence_toggle line then !b else b

/-- The links one line contributes in `extract_links_from_file`: nothing on
a fence line or while inside a code block; otherwise the pattern matches on
the line, with blank texts or targets and heuristic code snippets dropped. -/
def line_links (in_code_block : Bool) (line_num : Nat) (line : String) : List Link :=
  if fence_toggle line then []
  else if in_code_block then []
  else
    ((findall_links line.data).filter
      (fun p => !(py_strip p.1.data).isEmpty && !(py_strip p.2.data).isEmpty &&
        !is_likely_code_snippet line p.1 p.2)).map
      (fun p => { line_num := line_num, text := p.1, target := p.2 })

/-- The line-numbered scan of `extract_links_from_file`, threading the
fence state. -/
def scan_lines (in_code_block : Bool) (n : Nat) : List String → List Link
  | [] => []
  | l :: ls => line_links in_code_block n l ++ scan_lines (fence_step in_code_block l) (n + 1) ls

/-- The pure part of `extract_links_from_file` over an explicit line list:
1-based line numbers, fence state starting outside. -/
def extract_links_lines (lines : List String) : List Link :=
  scan_lines false 1 lines

/-- Source `extract_links_from_file(file_path)`: all markdown links of a
file; a file that cannot be read contributes no links. -/
def extract_links_from_file (fs : FS) (file_path : String) : List Link :=
  match fs.read file_path with
  | none => []
  | some content => extract_links_lines ((split_nl content.data).map String.mk)

/-- Characters that can occur in a folded anchor: lowercase letters, digits
and hyphens. -/
def folded_char (c : Char) : Bool :=
  ('a' ≤ c && c ≤ 'z') || ('0' ≤ c && c ≤ '9') || c = '-'

/-- A filesystem with no existing and no readable paths, used to evaluate
theorems on concrete inputs. -/
def fsEmpty : FS where
  pathExists := fun _ => false
  read := fun _ => none

/-- A small concrete filesystem for evaluating theorems: one readable
document with one heading, and one document that exists but cannot be
read (a permission failure). -/
def fsExample : FS where
  pathExists := fun p => p == "blueprint/doc.md" || p == "blueprint/locked.md"
  read := fun p => if p == "blueprint/doc.md" then some "# Hello World\nbody text" else none

/-- The external-unreachable tally of the report aggregator: one count per
result whose status equals the string external-unreachable. -/
def count_external_unreachable (rs : List ValidationResult) : Nat :=
  (rs.filter (fun r => r.status == "external-unreachable")).length

/-! General lemmas shared by the claim theorems. -/

theorem char_le_toNat {a c : Char} (h : a ≤ c) : a.toNat ≤ c.toNat := by
  simp only [Char.le_def, UInt32.le_def, BitVec.le_def] at h
  simpa [Char.toNat, UInt32.toNat] using h

theorem folded_char_cases {c : Char} (h : folded_char c = true) :
    (97 ≤ c.toNat ∧ c.toNat ≤ 122) ∨ (48 ≤ c.toNat ∧ c.toNat ≤ 57) ∨ c = '-' := by
  simp only [folded_char, Bool.or_eq_true, Bool.and_eq_true, decide_eq_true_eq] at h
  rcases h with (⟨h1, h2⟩ | ⟨h1, h2⟩) | h1
  · exact Or.inl ⟨char_le_toNat h1, char_le_toNat h2⟩
  · exact Or.inr (Or.inl ⟨char_le_toNat h1, char_le_toNat h2⟩)
  · exact Or.inr (Or.inr h1)

theorem folded_char_toLower {c : Char} (h : folded_char c = true) :
    Char.toLower c = c := by
  rcases folded_char_cases h with ⟨h1, h2⟩ | ⟨h1, h2⟩ | h1
  · have : ¬(65 ≤ c.toNat ∧ c.toNat ≤ 90) := by omega
    simp [Char.toLower, this]
  · have : ¬(65 ≤ c.toNat ∧ c.toNat ≤ 90) := by omega
    simp [Char.toLower, this]
  · subst h1; decide

theorem folded_char_keep {c : Char} (h : folded_char c = true) :
    keep_char c = true := by
  simp only [folded_char, Bool.or_eq_true, Bool.and_eq_true, decide_eq_true_eq] at h
  simp only [keep_char, Bool.or_eq_true, Bool.and_eq_true, decide_eq_true_eq]
  tauto

theorem folded_char_space {c : Char} (h : folded_char c = true) :
    pySpace c = false := by
  rcases Bool.eq_false_or_eq_true (pySpace c) with ht | hf
  swap
  · exact hf
  exfalso
  have hc := folded_char_cases h
  simp only [pySpace, Bool.or_eq_true, decide_eq_true_eq] at ht
  rcases ht with ((((rfl | rfl) | rfl) | rfl) | rfl) | rfl <;>
    exact absurd hc (by decide)

theorem folded_of_keep_notspace {c : Char} (hk : keep_char c = true)
    (hs : pySpace c = false) : folded_char c = true := by
  simp only [keep_char, Bool.or_eq_true, Bool.and_eq_true, decide_eq_true_eq] at hk
  simp only [folded_char, Bool.or_eq_true, Bool.and_eq_true, decide_eq_true_eq]
  rcases hk with ((h | h) | h) | h
  · exact Or.inl (Or.inl h)
  · exact Or.inl (Or.inr h)
  · rw [h] at hs; exact absurd hs (by simp)
  · exact Or.inr h

theorem collapse_runs_mem (p : Char → Bool) (out : Char) :
    ∀ l x, x ∈ collapse_runs p out l → x = out ∨ (x ∈ l ∧ p x = false) := by
  intro l
  induction l with
  | nil => intro x hx; simp [collapse_runs] at hx
  | cons c cs ih =>
    cases cs with
    | nil =>
      intro x hx
      simp only [collapse_runs] at hx
      split at hx
      · left; simpa using hx
      · rename_i hc
        right
        refine ⟨by simpa using hx, ?_⟩
        have : x = c := by simpa using hx
        subst this
        simpa using hc
    | cons d ds =>
      intro x hx
      simp only [collapse_runs] at hx
      split at hx
      · rcases ih x hx with h | ⟨h1, h2⟩
        · exact Or.inl h
        · exact Or.inr ⟨by simp [h1, List.mem_cons], h2⟩
      · rcases List.mem_cons.mp hx with h | h
        · subst h
          by_cases hc : p c = true
          · left; simp [hc]
          · right
            have hc' : p c = false := by simpa using hc
            refine ⟨?_, ?_⟩ <;> simp [hc']
        · rcases ih x h with h2 | ⟨h1, h2⟩
          · exact Or.inl h2
          · exact Or.inr ⟨by simp [h1, List.mem_cons], h2⟩

theorem collapse_runs_head_of_not (p : Char → Bool) (out d : Char) (ds : List Char)
    (hd : p d = false) : ∃ rest, collapse_runs p out (d :: ds) = d :: rest := by
  cases ds with
  | nil => exact ⟨[], by simp [collapse_runs, hd]⟩
  | cons e es => exact ⟨collapse_runs p out (e :: es), by simp [collapse_runs, hd]⟩

theorem collapse_runs_chain (p : Char → Bool) (out : Char) :
    ∀ l, List.Chain' (fun a b => p a = false ∨ p b = false) (collapse_runs p out l) := by
  intro l
  induction l with
  | nil => simp [collapse_runs]
  | cons c cs ih =>
    cases cs with
    | nil =>
      by_cases hc : p c = true
      · simp [collapse_runs, hc]
      · simp [collapse_runs, hc]
    | cons d ds =>
      by_cases hcd : (p c && p d) = true
      · simpa [collapse_runs, hcd] using ih
      · have hstep : collapse_runs p out (c :: d :: ds) =
            (if p c then out else c) :: collapse_runs p out (d :: ds) := by
          simp [collapse_runs, hcd]
        rw [hstep]
        rcases Bool.eq_false_or_eq_true (p c) with hc | hc
        swap
        · rw [if_neg (by simp [hc])]
          refine List.chain'_cons'.mpr ⟨?_, ih⟩
          intro y _hy
          exact Or.inl hc
        · rw [if_pos hc]
          have hd : p d = false := by
            rcases Bool.eq_false_or_eq_true (p d) with h | h
            swap
            · exact h
            · exfalso; rw [hc, h] at hcd; exact hcd rfl
          obtain ⟨rest, hrest⟩ := collapse_runs_head_of_not p out d ds hd
          rw [hrest] at ih ⊢
          refine List.chain'_cons'.mpr ⟨?_, ih⟩
          intro y hy
          have hyd : d = y := by simpa using hy
          rw [← hyd]
          exact Or.inr hd

theorem collapse_runs_eq_self_none (p : Char → Bool) (out : Char) :
    ∀ l, (∀ c ∈ l, p c = false) → collapse_runs p out l = l := by
  intro l
  induction l with
  | nil => intro _; rfl
  | cons c cs ih =>
    intro h
    cases cs with
    | nil => simp [collapse_runs, h c (by simp)]
    | cons d ds =>
      have hc := h c (by simp)
      have hd := h d (by simp)
      have hrest : ∀ x ∈ d :: ds, p x = false := fun x hx => h x (by simp [hx])
      simp only [collapse_runs, hc, hd, Bool.false_and, Bool.and_false, if_neg,
        Bool.false_eq_true, not_false_iff, if_false]
      exact List.cons_eq_cons.mpr ⟨rfl, ih hrest⟩

theorem collapse_runs_eq_self_chain (p : Char → Bool) (out : Char)
    (hpo : ∀ c, p c = true → c = out) :
    ∀ l, List.Chain' (fun a b => p a = false ∨ p b = false) l →
      collapse_runs p out l = l := by
  intro l
  induction l with
  | nil => intro _; rfl
  | cons c cs ih =>
    intro hch
    cases cs with
    | nil =>
      rcases Bool.eq_false_or_eq_true (p c) with hc | hc
      swap
      · simp [collapse_runs, hc]
      · rw [show collapse_runs p out [c] = [out] from by simp [collapse_runs, hc],
          hpo c hc]
    | cons d ds =>
      have hR : p c = false ∨ p d = false := (List.chain'_cons.mp hch).1
      have hch2 : List.Chain' (fun a b => p a = false ∨ p b = false) (d :: ds) :=
        (List.chain'_cons.mp hch).2
      have hcd : (p c && p d) = false := by
        rcases hR with h | h <;> simp [h]
      have hstep : collapse_runs p out (c :: d :: ds) =
          (if p c then out else c) :: collapse_runs p out (d :: ds) := by
        simp [collapse_runs, hcd]
      rw [hstep, ih hch2]
      rcases Bool.eq_false_or_eq_true (p c) with hc | hc
      swap
      · simp [hc]
      · simp [hc, hpo c hc]

theorem dropWhile_head_false (p : Char → Bool) :
    ∀ (l : List Char) (c : Char) (rest : List Char),
      l.dropWhile p = c :: rest → p c = false := by
  intro l
  induction l with
  | nil => intro c rest h; simp [List.dropWhile] at h
  | cons a as ih =>
    intro c rest h
    rw [List.dropWhile_cons] at h
    split at h
    · exact ih c rest h
    · rename_i ha
      cases h
      simpa using ha

theorem dropWhile_eq_self_of_head (p : Char → Bool) (l : List Char)
    (h : ∀ c rest, l = c :: rest → p c = false) : l.dropWhile p = l := by
  cases l with
  | nil => rfl
  | cons a as => simp [List.dropWhile_cons, h a as rfl]

theorem strip_hyphens_isPrefixDrop (l : List Char) :
    strip_hyphens l <+: l.dropWhile (fun c => c = '-') := by
  unfold strip_hyphens
  have h2 : (l.dropWhile (fun c => c = '-')).reverse.dropWhile (fun c => c = '-') <:+
      (l.dropWhile (fun c => c = '-')).reverse := List.dropWhile_suffix _
  have h3 := List.reverse_prefix.mpr h2
  simpa using h3

theorem strip_hyphens_within (l : List Char) : strip_hyphens l <:+: l := by
  obtain ⟨t1, h1⟩ := strip_hyphens_isPrefixDrop l
  obtain ⟨s, hs⟩ : l.dropWhile (fun c => c = '-') <:+ l := List.dropWhile_suffix _
  exact ⟨s, t1, by rw [List.append_assoc, h1, hs]⟩

theorem strip_hyphens_head (l : List Char) (c : Char) (rest : List Char)
    (h : strip_hyphens l = c :: rest) : c ≠ '-' := by
  obtain ⟨t, ht⟩ := strip_hyphens_isPrefixDrop l
  rw [h] at ht
  have := dropWhile_head_false (fun c => c = '-') l c (rest ++ t) (by rw [← ht]; simp)
  simpa using this

theorem strip_hyphens_last (l : List Char) (c : Char)
    (h : (strip_hyphens l).getLast? = some c) : c ≠ '-' := by
  unfold strip_hyphens at h
  rw [List.getLast?_reverse] at h
  rcases hu : (l.dropWhile (fun c => c = '-')).reverse.dropWhile (fun c => c = '-') with
    _ | ⟨a, t⟩
  · rw [hu] at h; cases h
  · rw [hu] at h
    have hac : a = c := by simpa using h
    have := dropWhile_head_false (fun c => c = '-')
      (l.dropWhile (fun c => c = '-')).reverse a t hu
    rw [hac] at this
    simpa using this

theorem strip_hyphens_eq_self (l : List Char)
    (hh : ∀ c rest, l = c :: rest → c ≠ '-')
    (hl : ∀ c, l.getLast? = some c → c ≠ '-') :
    strip_hyphens l = l := by
  unfold strip_hyphens
  have h1 : l.dropWhile (fun c => c = '-') = l := by
    apply dropWhile_eq_self_of_head
    intro c rest hcr
    simpa using hh c rest hcr
  rw [h1]
  have h2 : l.reverse.dropWhile (fun c => c = '-') = l.reverse := by
    apply dropWhile_eq_self_of_head
    intro c rest hcr
    have : l.reverse.head? = some c := by rw [hcr]; rfl
    rw [List.head?_reverse] at this
    simpa using hl c this
  rw [h2, List.reverse_reverse]

theorem generate_github_anchor_mem (s : String) :
    ∀ c ∈ (generate_github_anchor s).data, folded_char c = true := by
  intro c hc
  have hdata : (generate_github_anchor s).data =
      strip_hyphens (collapse_runs (fun c => c = '-') '-'
        (collapse_runs pySpace '-' ((s.data.map Char.toLower).filter keep_char))) := rfl
  rw [hdata] at hc
  have hw : c ∈ collapse_runs (fun c => c = '-') '-'
      (collapse_runs pySpace '-' ((s.data.map Char.toLower).filter keep_char)) :=
    (strip_hyphens_within _).subset hc
  rcases collapse_runs_mem _ _ _ c hw with h | ⟨hz, _⟩
  · subst h; decide
  rcases collapse_runs_mem _ _ _ c hz with h | ⟨hl2, hsp⟩
  · subst h; decide
  have hk : keep_char c = true := (List.mem_filter.mp hl2).2
  exact folded_of_keep_notspace hk hsp

theorem fold_fixes_folded (y : List Char)
    (hmem : ∀ c ∈ y, folded_char c = true)
    (hch : List.Chain' (fun a b => (a = '-' : Bool) = false ∨ (b = '-' : Bool) = false) y)
    (hh : ∀ (c : Char) (rest : List Char), y = c :: rest → c ≠ '-')
    (hl : ∀ c : Char, y.getLast? = some c → c ≠ '-') :
    generate_github_anchor (String.mk y) = String.mk y := by
  have h1 : y.map Char.toLower = y := by
    have := List.map_congr_left (fun c hc => folded_char_toLower (hmem c hc))
    simpa using this
  have h2 : y.filter keep_char = y :=
    List.filter_eq_self.mpr (fun c hc => folded_char_keep (hmem c hc))
  have h3 : collapse_runs pySpace '-' y = y :=
    collapse_runs_eq_self_none _ _ y (fun c hc => folded_char_space (hmem c hc))
  have h4 : collapse_runs (fun c => c = '-') '-' y = y :=
    collapse_runs_eq_self_chain _ _ (fun c h => by simpa using h) y hch
  have h5 : strip_hyphens y = y := strip_hyphens_eq_self y hh hl
  show String.mk (strip_hyphens (collapse_runs (fun c => c = '-') '-'
    (collapse_runs pySpace '-' ((y.map Char.toLower).filter keep_char)))) = String.mk y
  rw [h1, h2, h3, h4, h5]

/-! Claim theorems. -/

/-- C7: the Anchor Folder is idempotent: folding an already-folded string
returns it unchanged, `fold (fold x) = fold x` for every string `x`. -/
theorem c7_anchor_fold_idempotent (s : String) :
    generate_github_anchor (generate_github_anchor s) = generate_github_anchor s := by
  have hmem := generate_github_anchor_mem s
  have hch : List.Chain' (fun a b => (a = '-' : Bool) = false ∨ (b = '-' : Bool) = false)
      (generate_github_anchor s).data := by
    have hinfix := strip_hyphens_within (collapse_runs (fun c => c = '-') '-'
      (collapse_runs pySpace '-' ((s.data.map Char.toLower).filter keep_char)))
    have hchain := collapse_runs_chain (fun c => c = '-') '-'
      (collapse_runs pySpace '-' ((s.data.map Char.toLower).filter keep_char))
    exact List.Chain'.infix hchain hinfix
  have hh : ∀ (c : Char) (rest : List Char),
      (generate_github_anchor s).data = c :: rest → c ≠ '-' := by
    intro c rest h
    exact strip_hyphens_head _ c rest h
  have hl : ∀ c : Char, (generate_github_anchor s).data.getLast? = some c → c ≠ '-' := by
    intro c h
    exact strip_hyphens_last (collapse_runs (fun c => c = '-') '-'
      (collapse_runs pySpace '-' ((s.data.map Char.toLower).filter keep_char))) c h
  exact fold_fixes_folded (generate_github_anchor s).data hmem hch hh hl

/-- C2: the Anchor Folder is exactly the five-step pipeline — lowercase,
delete characters outside lowercase-alphanumeric-whitespace-hyphen, replace
whitespace runs by one hyphen, collapse hyphen runs, trim hyphens — and it
maps the spec's concrete examples to the stated values. -/
theorem c2_anchor_fold_algorithm :
    (∀ s : String, generate_github_anchor s =
      String.mk (strip_hyphens (collapse_runs (fun c => c = '-') '-'
        (collapse_runs pySpace '-' ((s.data.map Char.toLower).filter keep_char))))) ∧
    generate_github_anchor "Hello, World!" = "hello-world" ∧
    generate_github_anchor "  Multiple   Spaces  " = "multiple-spaces" ∧
    generate_github_anchor "C++ & Rust" = "c-rust" ∧
    generate_github_anchor "" = "" :=
  ⟨fun _ => rfl, by decide, by decide, by decide, by decide⟩

theorem line_links_inside (n : Nat) (l : String) : line_links true n l = [] := by
  unfold line_links
  split
  · rfl
  · rfl

theorem line_links_line_num (st : Bool) (n : Nat) (l : String) (c : Link)
    (h : c ∈ line_links st n l) : c.line_num = n := by
  unfold line_links at h
  split at h
  · simp at h
  split at h
  · simp at h
  · rcases List.mem_map.mp h with ⟨p, _, hp⟩
    rw [← hp]

theorem scan_lines_line_num_le (st : Bool) (n : Nat) (ls : List String) :
    ∀ c ∈ scan_lines st n ls, n ≤ c.line_num := by
  induction ls generalizing st n with
  | nil => intro c hc; simp [scan_lines] at hc
  | cons l ls ih =>
    intro c hc
    simp only [scan_lines, List.mem_append] at hc
    rcases hc with h | h
    · rw [line_links_line_num st n l c h]
    · exact Nat.le_of_succ_le (ih (fence_step st l) (n + 1) c h)

theorem scan_lines_filter_inside (st : Bool) (n : Nat) (ls : List String) :
    ∀ i : Nat, i < ls.length → (ls.take i).foldl fence_step st = true →
      (scan_lines st n ls).filter (fun c => c.line_num == n + i) = [] := by
  induction ls generalizing st n with
  | nil => intro i hi; simp at hi
  | cons l ls ih =>
    intro i hi hst
    simp only [scan_lines, List.filter_append]
    cases i with
    | zero =>
      simp only [List.take_zero, List.foldl_nil] at hst
      subst hst
      rw [line_links_inside]
      simp only [List.filter_nil, List.nil_append, Nat.add_zero]
      apply List.filter_eq_nil_iff.mpr
      intro c hc
      have hle := scan_lines_line_num_le (fence_step true l) (n + 1) ls c hc
      simp only [beq_iff_eq]
      omega
    | succ j =>
      have h1 : (line_links st n l).filter (fun c => c.line_num == n + (j + 1)) = [] := by
        apply List.filter_eq_nil_iff.mpr
        intro c hc
        rw [line_links_line_num st n l c hc]
        simp only [beq_iff_eq]
        omega
      have hst2 : (ls.take j).foldl fence_step (fence_step st l) = true := by
        simpa [List.take_succ_cons, List.foldl_cons] using hst
      have h2 := ih (fence_step st l) (n + 1) j (by simpa using hi) hst2
      have hnum : n + 1 + j = n + (j + 1) := by omega
      rw [hnum] at h2
      rw [h1, h2]
      rfl

/-- C3: the link extractor's fence state is a single boolean, reset to
outside at the start of each scan and toggled by every line whose stripped
form starts with a triple backtick; any line reached while that state is
inside a fenced block — in particular every line strictly between an
opening fence and its matching closing fence — contributes no link
candidate, whatever its content. -/
theorem c3_fenced_lines_no_candidates (lines : List String) (i : Nat)
    (hi : i < lines.length)
    (hst : (lines.take i).foldl fence_step false = true) :
    extract_links_lines lines = scan_lines false 1 lines ∧
    (extract_links_lines lines).filter (fun c => c.line_num == 1 + i) = [] :=
  ⟨rfl, scan_lines_filter_inside false 1 lines i hi hst⟩

/-- C3 witness: in a concrete document the line between the two fences is
line 2, and no candidate carries line number 2. -/
theorem c3_witness :
    extract_links_lines ["```", "[x](#y)", "```"] =
      scan_lines false 1 ["```", "[x](#y)", "```"] ∧
    (extract_links_lines ["```", "[x](#y)", "```"]).filter
      (fun c => c.line_num == 1 + 1) = [] :=
  c3_fenced_lines_no_candidates ["```", "[x](#y)", "```"] 1 (by decide) (by decide)

theorem py_strip_isPrefixDrop (l : List Char) :
    py_strip l <+: l.dropWhile pySpace := by
  unfold py_strip
  have h2 : (l.dropWhile pySpace).reverse.dropWhile pySpace <:+
      (l.dropWhile pySpace).reverse := List.dropWhile_suffix _
  have h3 := List.reverse_prefix.mpr h2
  simpa using h3

theorem py_strip_head_not_space (l : List Char) (c : Char) (rest : List Char)
    (h : py_strip l = c :: rest) : pySpace c = false := by
  obtain ⟨t, ht⟩ := py_strip_isPrefixDrop l
  rw [h] at ht
  exact dropWhile_head_false pySpace l c (rest ++ t) (by rw [← ht]; simp)

theorem stripped_line_never_indented (l : List Char) :
    py_startswith (py_strip l) "    ".data = false := by
  rcases hs : py_strip l with _ | ⟨c, rest⟩
  · rfl
  · have hc : pySpace c = false := py_strip_head_not_space l c rest hs
    simp only [pySpace, Bool.or_eq_false_iff] at hc
    obtain ⟨⟨⟨⟨⟨h1, _⟩, _⟩, _⟩, _⟩, _⟩ := hc
    have : "    ".data = ' ' :: "   ".data := rfl
    rw [this]
    simp [py_startswith, h1]

/-- C9: the heuristic filter's indentation test checks the stripped line,
which never starts with a space, so the test is vacuous: the four-space
indented line of the claim passes the filter and does produce a
LinkCandidate. -/
theorem c9_indented_line_not_discarded :
    (∀ l : List Char, py_startswith (py_strip l) "    ".data = false) ∧
    is_likely_code_snippet "    [x](#y)" "x" "#y" = false ∧
    extract_links_lines ["    [x](#y)"] =
      [{ line_num := 1, text := "x", target := "#y" }] :=
  ⟨stripped_line_never_indented, by decide, by decide⟩

/-- C8: the Heading Extractor is a per-line map with no fence state: it
equals a line-by-line filterMap, and a line that yields a heading
contributes it whatever lines surround it — in particular inside a fenced
code block. -/
theorem c8_heading_extractor_scans_all_lines :
    (∀ lines : List String, extract_headings_lines lines =
      lines.filterMap heading_of_line) ∧
    (∀ (pre : List String) (l : String) (post : List String) (h : String),
      heading_of_line l = some h → h ∈ extract_headings_lines (pre ++ l :: post)) := by
  constructor
  · intro lines; rfl
  · intro pre l post h hh
    unfold extract_headings_lines
    rw [List.filterMap_append]
    apply List.mem_append.mpr
    right
    simp [List.filterMap_cons, hh]

/-- C8 witness: a heading line lying between two code fences is still
extracted. -/
theorem c8_witness :
    "Inside Fence" ∈ extract_headings_lines ["```", "# Inside Fence", "```"] :=
  c8_heading_extractor_scans_all_lines.2 ["```"] "# Inside Fence" ["```"]
    "Inside Fence" (by decide)

theorem hash_append_data (a : String) : ("#" ++ a).data = '#' :: a.data := by
  rw [String.data_append]
  rfl

theorem validate_status_anchor (fs : FS) (src anchor : String) :
    validate_status fs src ("#" ++ anchor) =
      if anchor_exists fs src anchor then ("valid", "")
      else ("missing-anchor",
        "Anchor '#" ++ anchor ++ "' not found in " ++ src ++
        ". Check heading exists and anchor format.") := by
  unfold validate_status
  rw [hash_append_data]
  have h1 : py_startswith ('#' :: anchor.data) "http://".data = false := by
    simp [py_startswith]
  have h2 : py_startswith ('#' :: anchor.data) "https://".data = false := by
    simp [py_startswith]
  have h3 : py_startswith ('#' :: anchor.data) ['#'] = true := by
    simp [py_startswith]
  rw [h1, h2, h3]
  simp only [Bool.or_self, Bool.false_eq_true, if_false, if_true]
  have h4 : String.mk (('#' :: anchor.data).drop 1) = anchor := rfl
  rw [h4]

theorem anchor_exists_iff (fs : FS) (doc anchor : String) :
    anchor_exists fs doc anchor = true ↔
      ∃ h ∈ extract_headings fs doc, generate_github_anchor h = anchor := by
  unfold anchor_exists
  rw [List.any_eq_true]
  constructor
  · rintro ⟨h, hm, hb⟩
    exact ⟨h, hm, by simpa using hb⟩
  · rintro ⟨h, hm, hb⟩
    exact ⟨h, hm, by simpa using hb⟩

/-- C1: for an anchor-only target the resolver strips the hash and reports
valid exactly when some heading of the source document folds to the anchor;
otherwise the status is missing-anchor with a message naming the anchor and
the source document. -/
theorem c1_anchor_only_resolution (fs : FS) (src : String) (n : Nat)
    (txt anchor : String) :
    ((validate_link fs src n txt ("#" ++ anchor)).status = "valid" ↔
      ∃ h ∈ extract_headings fs src, generate_github_anchor h = anchor) ∧
    ((¬ ∃ h ∈ extract_headings fs src, generate_github_anchor h = anchor) →
      (validate_link fs src n txt ("#" ++ anchor)).status = "missing-anchor" ∧
      (validate_link fs src n txt ("#" ++ anchor)).suggestion =
        "Anchor '#" ++ anchor ++ "' not found in " ++ src ++
        ". Check heading exists and anchor format.") := by
  have hred := validate_status_anchor fs src anchor
  have hst : (validate_link fs src n txt ("#" ++ anchor)).status =
      (validate_status fs src ("#" ++ anchor)).1 := rfl
  have hsg : (validate_link fs src n txt ("#" ++ anchor)).suggestion =
      (validate_status fs src ("#" ++ anchor)).2 := rfl
  constructor
  · constructor
    · intro hv
      apply (anchor_exists_iff fs src anchor).mp
      cases hb : anchor_exists fs src anchor with
      | true => rfl
      | false =>
        exfalso
        rw [hst, hred, if_neg (by simp [hb])] at hv
        simp at hv
    · intro he
      have hb := (anchor_exists_iff fs src anchor).mpr he
      rw [hst, hred, if_pos hb]
  · intro hne
    have hb : anchor_exists fs src anchor = false := by
      cases hb : anchor_exists fs src anchor with
      | true => exact absurd ((anchor_exists_iff fs src anchor).mp hb) hne
      | false => rfl
    constructor
    · rw [hst, hred, if_neg (by simp [hb])]
    · rw [hsg, hred, if_neg (by simp [hb])]

/-- C1 witness: a concrete anchor-only link whose anchor matches no heading
of its document gets missing-anchor and the naming suggestion. -/
theorem c1_witness :
    (validate_link fsExample "blueprint/doc.md" 3 "x" ("#" ++ "missing")).status =
      "missing-anchor" ∧
    (validate_link fsExample "blueprint/doc.md" 3 "x" ("#" ++ "missing")).suggestion =
      "Anchor '#" ++ "missing" ++ "' not found in " ++ "blueprint/doc.md" ++
      ". Check heading exists and anchor format." :=
  (c1_anchor_only_resolution fsExample "blueprint/doc.md" 3 "x" "missing").2 (by decide)

theorem validate_status_missing_file (fs : FS) (src target : String)
    (h1 : py_startswith target.data "http://".data = false)
    (h2 : py_startswith target.data "https://".data = false)
    (h3 : py_startswith target.data ['#'] = false)
    (h4 : (py_startswith target.data ['.', '/'] ||
          (count_char '/' target.data = 0 || count_char '/' target.data = 1)) = true)
    (h5 : fs.pathExists (joinBlueprintPath (resolve_file_part target)) = false) :
    validate_status fs src target =
      if is_image_ref (resolve_file_part target) then ("valid", "")
      else ("invalid",
        "File '" ++ resolve_file_part target ++
        "' does not exist in blueprint/ directory.") := by
  unfold validate_status
  rw [h1, h2, h3, h4]
  simp only [Bool.or_self, Bool.false_eq_true, if_false, if_true, h5]

/-- C4: a relative-file candidate whose resolved root-relative path does not
exist is valid exactly when its file part ends in one of the image
extensions, and otherwise invalid with a suggestion naming the missing
file. -/
theorem c4_missing_relative_file (fs : FS) (src : String) (n : Nat)
    (txt target : String)
    (h1 : py_startswith target.data "http://".data = false)
    (h2 : py_startswith target.data "https://".data = false)
    (h3 : py_startswith target.data ['#'] = false)
    (h4 : (py_startswith target.data ['.', '/'] ||
          (count_char '/' target.data = 0 || count_char '/' target.data = 1)) = true)
    (h5 : fs.pathExists (joinBlueprintPath (resolve_file_part target)) = false) :
    (is_image_ref (resolve_file_part target) = true →
      (validate_link fs src n txt target).status = "valid") ∧
    (is_image_ref (resolve_file_part target) = false →
      (validate_link fs src n txt target).status = "invalid" ∧
      (validate_link fs src n txt target).suggestion =
        "File '" ++ resolve_file_part target ++
        "' does not exist in blueprint/ directory.") := by
  have hred := validate_status_missing_file fs src target h1 h2 h3 h4 h5
  have hst : (validate_link fs src n txt target).status =
      (validate_status fs src target).1 := rfl
  have hsg : (validate_link fs src n txt target).suggestion =
      (validate_status fs src target).2 := rfl
  constructor
  · intro him
    rw [hst, hred, if_pos him]
  · intro him
    constructor
    · rw [hst, hred, if_neg (by simp [him])]
    · rw [hsg, hred, if_neg (by simp [him])]

/-- C4 witness: under an empty filesystem a missing markdown target is
invalid with the naming suggestion while a missing image target is valid. -/
theorem c4_witness :
    ((validate_link fsEmpty "blueprint/a.md" 1 "x" "./missing.md").status = "invalid" ∧
     (validate_link fsEmpty "blueprint/a.md" 1 "x" "./missing.md").suggestion =
       "File '" ++ resolve_file_part "./missing.md" ++
       "' does not exist in blueprint/ directory.") ∧
    (validate_link fsEmpty "blueprint/a.md" 2 "x" "./diagram.png").status = "valid" :=
  ⟨(c4_missing_relative_file fsEmpty "blueprint/a.md" 1 "x" "./missing.md"
      (by decide) (by decide) (by decide) (by decide) (by decide)).2 (by decide),
   (c4_missing_relative_file fsEmpty "blueprint/a.md" 2 "x" "./diagram.png"
      (by decide) (by decide) (by decide) (by decide) (by decide)).1 (by decide)⟩

/-- C5 (amended): every target that fails all three classification tests —
not an external scheme, not hash-initial, not dot-slash-initial with at
most one slash — is invalid with the fixed unsupported-format suggestion,
and resolution is a total function (it never raises). -/
theorem c5_unsupported_shape (fs : FS) (src : String) (n : Nat)
    (txt target : String)
    (h1 : py_startswith target.data "http://".data = false)
    (h2 : py_startswith target.data "https://".data = false)
    (h3 : py_startswith target.data ['#'] = false)
    (h4 : (py_startswith target.data ['.', '/'] ||
          (count_char '/' target.data = 0 || count_char '/' target.data = 1)) = false) :
    (validate_link fs src n txt target).status = "invalid" ∧
    (validate_link fs src n txt target).suggestion =
      "Link format not supported. Use relative links (./file.md) for local files." := by
  have hst : (validate_link fs src n txt target).status =
      (validate_status fs src target).1 := rfl
  have hsg : (validate_link fs src n txt target).suggestion =
      (validate_status fs src target).2 := rfl
  have hred : validate_status fs src target =
      ("invalid",
        "Link format not supported. Use relative links (./file.md) for local files.") := by
    unfold validate_status
    rw [h1, h2, h3, h4]
    simp only [Bool.or_self, Bool.false_eq_true, if_false]
  exact ⟨by rw [hst, hred], by rw [hsg, hred]⟩

/-- C5 counterexample: a mailto-style target has no slash at all, so it
does not fail the third classification rule — it is classified
relative-file and receives the missing-file suggestion, not the fixed
unsupported-format suggestion the claim asserts for it. -/
theorem c5_counterexample :
    (count_char '/' "mailto:user@example.com".data = 0 ||
     count_char '/' "mailto:user@example.com".data = 1) = true ∧
    (validate_link fsEmpty "blueprint/a.md" 1 "x" "mailto:user@example.com").status =
      "invalid" ∧
    (validate_link fsEmpty "blueprint/a.md" 1 "x" "mailto:user@example.com").suggestion ≠
      "Link format not supported. Use relative links (./file.md) for local files." ∧
    (validate_link fsEmpty "blueprint/a.md" 1 "x" "mailto:user@example.com").suggestion =
      "File 'mailto:user@example.com' does not exist in blueprint/ directory." :=
  ⟨by decide, by decide, by decide, by decide⟩

/-- C5 witness: an absolute multi-segment path fails every classification
test and gets the fixed suggestion. -/
theorem c5_witness :
    (validate_link fsEmpty "blueprint/a.md" 1 "x" "/usr/share/doc.md").status =
      "invalid" ∧
    (validate_link fsEmpty "blueprint/a.md" 1 "x" "/usr/share/doc.md").suggestion =
      "Link format not supported. Use relative links (./file.md) for local files." :=
  c5_unsupported_shape fsEmpty "blueprint/a.md" 1 "x" "/usr/share/doc.md"
    (by decide) (by decide) (by decide) (by decide)

theorem takeUntil_append_hash :
    ∀ (l1 l2 : List Char), '#' ∉ l1 →
      takeUntil '#' (l1 ++ '#' :: l2) = some (l1, l2) := by
  intro l1
  induction l1 with
  | nil => intro l2 _; simp [takeUntil]
  | cons c cs ih =>
    intro l2 hn
    have hc : c ≠ '#' := by
      intro h
      exact hn (by simp [h])
    simp only [List.cons_append, takeUntil, List.append_eq]
    rw [if_neg hc, ih l2 (fun h => hn (List.mem_cons_of_mem c h))]

theorem dotslash_data (f anchor : String) :
    ("./" ++ f ++ "#" ++ anchor).data =
      ('.' :: '/' :: f.data) ++ '#' :: anchor.data := by
  simp [String.data_append]

theorem split_hash_dotslash (f anchor : String) (hf : '#' ∉ f.data) :
    split_hash (("./" ++ f ++ "#" ++ anchor).data) =
      ('.' :: '/' :: f.data, anchor.data) := by
  rw [dotslash_data]
  unfold split_hash
  rw [takeUntil_append_hash ('.' :: '/' :: f.data) anchor.data (by simp [hf])]

theorem resolve_file_part_dotslash (f anchor : String) (hf : '#' ∉ f.data) :
    resolve_file_part ("./" ++ f ++ "#" ++ anchor) = f := by
  unfold resolve_file_part
  rw [split_hash_dotslash f anchor hf]
  simp [py_startswith]

theorem resolve_anchor_part_dotslash (f anchor : String) (hf : '#' ∉ f.data) :
    resolve_anchor_part ("./" ++ f ++ "#" ++ anchor) = anchor := by
  unfold resolve_anchor_part
  rw [split_hash_dotslash f anchor hf]

theorem validate_status_dotslash_anchor (fs : FS) (src f anchor : String)
    (hf : '#' ∉ f.data) :
    validate_status fs src ("./" ++ f ++ "#" ++ anchor) =
      if fs.pathExists (joinBlueprintPath f) then
        if anchor ≠ "" then
          if anchor_exists fs (joinBlueprintPath f) anchor then ("valid", "")
          else ("missing-anchor",
            "Anchor '#" ++ anchor ++ "' not found in " ++ joinBlueprintPath f ++
            ". Check heading exists and anchor format.")
        else ("valid", "")
      else if is_image_ref f then ("valid", "")
      else ("invalid",
        "File '" ++ f ++ "' does not exist in blueprint/ directory.") := by
  have hfp := resolve_file_part_dotslash f anchor hf
  have hap := resolve_anchor_part_dotslash f anchor hf
  unfold validate_status
  rw [hfp, hap, dotslash_data]
  have h1 : py_startswith (('.' :: '/' :: f.data) ++ '#' :: anchor.data)
      "http://".data = false := by simp [py_startswith]
  have h2 : py_startswith (('.' :: '/' :: f.data) ++ '#' :: anchor.data)
      "https://".data = false := by simp [py_startswith]
  have h3 : py_startswith (('.' :: '/' :: f.data) ++ '#' :: anchor.data)
      ['#'] = false := by simp [py_startswith]
  have h4 : py_startswith (('.' :: '/' :: f.data) ++ '#' :: anchor.data)
      ['.', '/'] = true := by simp [py_startswith]
  rw [h1, h2, h3, h4]
  simp only [Bool.or_self, Bool.false_eq_true, if_false, Bool.true_or, if_true]

/-- C6: resolution of an anchor against a document that cannot be read never
faults: the unreadable document contributes an empty heading list, every
anchor lookup against it fails, and both anchor-carrying link shapes
(anchor-only against an unreadable source, relative-with-anchor against an
existing but unreadable target) resolve to the status missing-anchor; the
resolver is a total function, so no single bad link can abort a run. -/
theorem c6_unreadable_target_missing_anchor (fs : FS) :
    (∀ doc : String, fs.read doc = none → extract_headings fs doc = []) ∧
    (∀ doc anchor : String, fs.read doc = none →
      anchor_exists fs doc anchor = false) ∧
    (∀ (src : String) (n : Nat) (txt anchor : String), fs.read src = none →
      (validate_link fs src n txt ("#" ++ anchor)).status = "missing-anchor") ∧
    (∀ (src : String) (n : Nat) (txt f anchor : String),
      '#' ∉ f.data → anchor ≠ "" →
      fs.pathExists (joinBlueprintPath f) = true →
      fs.read (joinBlueprintPath f) = none →
      (validate_link fs src n txt ("./" ++ f ++ "#" ++ anchor)).status =
        "missing-anchor") := by
  have part1 : ∀ doc : String, fs.read doc = none → extract_headings fs doc = [] := by
    intro doc h
    unfold extract_headings
    rw [h]
  have part2 : ∀ doc anchor : String, fs.read doc = none →
      anchor_exists fs doc anchor = false := by
    intro doc anchor h
    unfold anchor_exists
    rw [part1 doc h]
    rfl
  refine ⟨part1, part2, ?_, ?_⟩
  · intro src n txt anchor h
    have hst : (validate_link fs src n txt ("#" ++ anchor)).status =
        (validate_status fs src ("#" ++ anchor)).1 := rfl
    rw [hst, validate_status_anchor, if_neg (by simp [part2 src anchor h])]
  · intro src n txt f anchor hf ha hpe hre
    have hst : (validate_link fs src n txt ("./" ++ f ++ "#" ++ anchor)).status =
        (validate_status fs src ("./" ++ f ++ "#" ++ anchor)).1 := rfl
    rw [hst, validate_status_dotslash_anchor fs src f anchor hf, if_pos hpe,
      if_pos ha, if_neg (by simp [part2 (joinBlueprintPath f) anchor hre])]

/-- C6 witness: a document that is absent entirely and a document that
exists but cannot be read both yield missing-anchor for anchor lookups. -/
theorem c6_witness :
    extract_headings fsExample "blueprint/gone.md" = [] ∧
    anchor_exists fsExample "blueprint/gone.md" "intro" = false ∧
    (validate_link fsExample "blueprint/gone.md" 1 "x" ("#" ++ "intro")).status =
      "missing-anchor" ∧
    (validate_link fsExample "blueprint/doc.md" 2 "y"
      ("./" ++ "locked.md" ++ "#" ++ "sec")).status = "missing-anchor" :=
  ⟨(c6_unreadable_target_missing_anchor fsExample).1 "blueprint/gone.md" (by decide),
   (c6_unreadable_target_missing_anchor fsExample).2.1 "blueprint/gone.md" "intro"
     (by decide),
   (c6_unreadable_target_missing_anchor fsExample).2.2.1 "blueprint/gone.md" 1 "x"
     "intro" (by decide),
   (c6_unreadable_target_missing_anchor fsExample).2.2.2 "blueprint/doc.md" 2 "y"
     "locked.md" "sec" (by decide) (by decide) (by decide) (by decide)⟩

theorem validate_status_cases (fs : FS) (src target : String) :
    (validate_status fs src target).1 = "valid" ∨
    (validate_status fs src target).1 = "invalid" ∨
    (validate_status fs src target).1 = "missing-anchor" := by
  unfold validate_status
  dsimp only
  split
  · left; rfl
  split
  · split
    · left; rfl
    · right; right; rfl
  split
  · split
    · split
      · split
        · left; rfl
        · right; right; rfl
      · left; rfl
    · split
      · left; rfl
      · right; left; rfl
  · right; left; rfl

/-- C10: the resolver's status is always one of valid, invalid or
missing-anchor; every external http or https target is valid; hence the
external-unreachable tally over any list of resolver outputs is zero. -/
theorem c10_no_external_unreachable :
    (∀ (fs : FS) (src : String) (n : Nat) (txt target : String),
      (validate_link fs src n txt target).status = "valid" ∨
      (validate_link fs src n txt target).status = "invalid" ∨
      (validate_link fs src n txt target).status = "missing-anchor") ∧
    (∀ (fs : FS) (src : String) (n : Nat) (txt target : String),
      (py_startswith target.data "http://".data ||
       py_startswith target.data "https://".data) = true →
      (validate_link fs src n txt target).status = "valid") ∧
    (∀ rs : List ValidationResult,
      (∀ r ∈ rs, ∃ (fs : FS) (src : String) (n : Nat) (txt target : String),
        r = validate_link fs src n txt target) →
      count_external_unreachable rs = 0) := by
  have hrange : ∀ (fs : FS) (src : String) (n : Nat) (txt target : String),
      (validate_link fs src n txt target).status = "valid" ∨
      (validate_link fs src n txt target).status = "invalid" ∨
      (validate_link fs src n txt target).status = "missing-anchor" := by
    intro fs src n txt target
    exact validate_status_cases fs src target
  refine ⟨hrange, ?_, ?_⟩
  · intro fs src n txt target h
    have hst : (validate_link fs src n txt target).status =
        (validate_status fs src target).1 := rfl
    rw [hst]
    unfold validate_status
    rw [h]
    rfl
  · intro rs hall
    unfold count_external_unreachable
    rw [List.filter_eq_nil_iff.mpr ?_]
    · rfl
    intro r hr
    obtain ⟨fs, src, n, txt, target, rfl⟩ := hall r hr
    rcases hrange fs src n txt target with h | h | h <;>
      simp [h]

/-- C10 witness: a concrete external link is valid and a singleton output
list has a zero external-unreachable tally. -/
theorem c10_witness :
    (validate_link fsEmpty "blueprint/a.md" 1 "x" "http://example.com").status =
      "valid" ∧
    count_external_unreachable
      [validate_link fsEmpty "blueprint/a.md" 1 "x" "http://example.com"] = 0 :=
  ⟨c10_no_external_unreachable.2.1 fsEmpty "blueprint/a.md" 1 "x"
     "http://example.com" (by decide),
   c10_no_external_unreachable.2.2
     [validate_link fsEmpty "blueprint/a.md" 1 "x" "http://example.com"]
     (by
       intro r hr
       rw [List.mem_singleton] at hr
       exact ⟨fsEmpty, "blueprint/a.md", 1, "x", "http://example.com", hr⟩)⟩
